import Mathlib

/-!
Shallow embedding of the L-BFGS core in
`src/planner/bspline_opt/include/bspline_opt/lbfgs_lite.hpp` (namespace
`lbfgs_lite`).  Doubles are modelled as rationals; the machine square root
is an explicit function parameter `rsqrt` so every definition stays
executable.  Vectors of `n` doubles are lists of rationals.  The caller's
callbacks are pure functions.  The potentially unbounded driver loop is
driven by explicit fuel and returns `none` when the fuel runs out.
-/

namespace LbfgsLite

/-- A variable/gradient vector: `double *` of length `n` in the source. -/
abbrev Vec := List ℚ

/-- `vecncpy(y, x, n)`: `y[i] = -x[i]`. -/
def vecncpy (x : Vec) : Vec := x.map (fun v => -v)

/-- `vecadd(y, x, c, n)`: `y[i] += c * x[i]`. -/
def vecadd (y : Vec) (x : Vec) (c : ℚ) : Vec :=
  List.zipWith (fun yi xi => yi + c * xi) y x

/-- `vecdiff(z, x, y, n)`: `z[i] = x[i] - y[i]`. -/
def vecdiff (x : Vec) (y : Vec) : Vec := List.zipWith (fun a b => a - b) x y

/-- `vecscale(y, c, n)`: `y[i] *= c`. -/
def vecscale (y : Vec) (c : ℚ) : Vec := y.map (fun v => v * c)

/-- `vecdot(s, x, y, n)`: `*s = sum x[i]*y[i]`. -/
def vecdot (x : Vec) (y : Vec) : ℚ := (List.zipWith (fun a b => a * b) x y).sum

/-- `vec2norm(s, x, n)`: `*s = sqrt(vecdot(x,x))`, with the machine square
root passed in as `rsqrt`. -/
def vec2norm (rsqrt : ℚ → ℚ) (x : Vec) : ℚ := rsqrt (vecdot x x)

/-- `vec2norminv(s, x, n)`: `*s = 1 / vec2norm(x)`. -/
def vec2norminv (rsqrt : ℚ → ℚ) (x : Vec) : ℚ := 1 / vec2norm rsqrt x

/-- `lbfgs_parameter_t`, fields in source order. -/
structure lbfgs_parameter_t where
  mem_size : Int
  g_epsilon : ℚ
  past : Int
  delta : ℚ
  max_iterations : Int
  max_linesearch : Int
  min_step : ℚ
  max_step : ℚ
  f_dec_coeff : ℚ
  s_curv_coeff : ℚ
  xtol : ℚ
deriving DecidableEq

/-- `_default_param`: the default parameter values from the source. -/
def _default_param : lbfgs_parameter_t :=
  { mem_size := 8
    g_epsilon := 1 / 100000
    past := 0
    delta := 1 / 100000
    max_iterations := 0
    max_linesearch := 40
    min_step := 1 / 10 ^ 20
    max_step := 10 ^ 20
    f_dec_coeff := 1 / 10000
    s_curv_coeff := 9 / 10
    xtol := 1 / 10 ^ 16 }

/-! Status codes: the anonymous enum.  `LBFGSERR_UNKNOWNERROR = -1024` and
each following enumerator is one larger. -/

def LBFGS_CONVERGENCE : Int := 0
def LBFGS_STOP : Int := 1
def LBFGS_ALREADY_MINIMIZED : Int := 2
def LBFGSERR_UNKNOWNERROR : Int := -1024
def LBFGSERR_LOGICERROR : Int := -1023
def LBFGSERR_CANCELED : Int := -1022
def LBFGSERR_INVALID_N : Int := -1021
def LBFGSERR_INVALID_MEMSIZE : Int := -1020
def LBFGSERR_INVALID_GEPSILON : Int := -1019
def LBFGSERR_INVALID_TESTPERIOD : Int := -1018
def LBFGSERR_INVALID_DELTA : Int := -1017
def LBFGSERR_INVALID_MINSTEP : Int := -1016
def LBFGSERR_INVALID_MAXSTEP : Int := -1015
def LBFGSERR_INVALID_FDECCOEFF : Int := -1014
def LBFGSERR_INVALID_SCURVCOEFF : Int := -1013
def LBFGSERR_INVALID_XTOL : Int := -1012
def LBFGSERR_INVALID_MAXLINESEARCH : Int := -1011
def LBFGSERR_OUTOFINTERVAL : Int := -1010
def LBFGSERR_INCORRECT_TMINMAX : Int := -1009
def LBFGSERR_ROUNDING_ERROR : Int := -1008
def LBFGSERR_MINIMUMSTEP : Int := -1007
def LBFGSERR_MAXIMUMSTEP : Int := -1006
def LBFGSERR_MAXIMUMLINESEARCH : Int := -1005
def LBFGSERR_MAXIMUMITERATION : Int := -1004
def LBFGSERR_WIDTHTOOSMALL : Int := -1003
def LBFGSERR_INVALIDPARAMETERS : Int := -1002
def LBFGSERR_INCREASEGRADIENT : Int := -1001

/-- `iteration_data_t`: one history ring-buffer slot. -/
structure iteration_data_t where
  alpha : ℚ
  s : Vec
  y : Vec
  ys : ℚ
deriving DecidableEq

instance : Inhabited iteration_data_t := ⟨⟨0, [], [], 0⟩⟩

/-- The three client callbacks of `callback_data_t`, as pure functions.
`evaluate x = (f, g)` is `proc_evaluate`; `stepbound xp d` is
`proc_stepbound`; `progress x g fx xnorm gnorm step k ls` is
`proc_progress` (the `instance` pointer and `n` are dropped: the
evaluator is a deterministic function of `x` per the contract). -/
structure Callbacks where
  evaluate : Vec → ℚ × Vec
  stepbound : Option (Vec → Vec → ℚ)
  progress : Option (Vec → Vec → ℚ → ℚ → ℚ → ℚ → Int → Int → Int)

/-- Result of `line_search_backtracking`: the returned int together with
the final values of the in/out buffers `x`, `*f`, `g`, `*stp`, plus an
instrumentation count `evals` of evaluator calls made by the search. -/
structure LSResult where
  status : Int
  x : Vec
  f : ℚ
  g : Vec
  stp : ℚ
  evals : Nat
deriving DecidableEq

/-- The `for (;;)` loop of `line_search_backtracking`: one iteration
builds the trial point `x = xp + stp*s`, evaluates it, and either accepts
(sufficient decrease), reports a bound / budget violation, or halves the
step (`dec = 0.5`) and retries.  `count` is the number of evaluator calls
already made.  The loop terminates because the `max_linesearch <= count`
check fires once `count` reaches the budget; to keep the definition
kernel-computable the recursion is structured on `fuel`, calibrated by
the caller to `(max_linesearch - count).toNat`.  Whenever the retry
branch is reached, `count + 1 < max_linesearch`, so a calibrated `fuel`
is at least 2 there and the `fuel = 0` fallback is unreachable (the
hypotheses of `ls_loop_spec` below make this precise). -/
def ls_loop (ev : Vec → ℚ × Vec) (param : lbfgs_parameter_t) (sdir xp : Vec)
    (finit dgtest stpmin stpmax : ℚ) (fuel : Nat) (count : Int) (stp : ℚ) : LSResult :=
  let x := vecadd xp sdir stp
  let fg := ev x
  let count1 := count + 1
  if fg.1 ≤ finit + stp * dgtest then
    { status := count1, x := x, f := fg.1, g := fg.2, stp := stp, evals := count1.toNat }
  else if stp < stpmin then
    { status := LBFGSERR_MINIMUMSTEP
      x := x
      f := fg.1
      g := fg.2
      stp := stp
      evals := count1.toNat }
  else if stpmax < stp then
    { status := LBFGSERR_MAXIMUMSTEP
      x := x
      f := fg.1
      g := fg.2
      stp := stp
      evals := count1.toNat }
  else if param.max_linesearch ≤ count1 then
    { status := LBFGSERR_MAXIMUMLINESEARCH
      x := x
      f := fg.1
      g := fg.2
      stp := stp
      evals := count1.toNat }
  else
    match fuel with
    | 0 =>
        { status := LBFGSERR_MAXIMUMLINESEARCH
          x := x
          f := fg.1
          g := fg.2
          stp := stp
          evals := count1.toNat }
    | fuel1 + 1 =>
        ls_loop ev param sdir xp finit dgtest stpmin stpmax fuel1 count1 (stp * (1 / 2))

/-- `line_search_backtracking`.  `x0`, `f0`, `g0` are the entry values of
the in/out buffers, `stp` the entry step, `sdir` the search direction `s`,
`xp`/`gp` the previous point and gradient, `stpmin`/`stpmax` the step
interval. -/
def line_search_backtracking (ev : Vec → ℚ × Vec) (param : lbfgs_parameter_t)
    (x0 : Vec) (f0 : ℚ) (g0 : Vec) (stp : ℚ) (sdir xp gp : Vec)
    (stpmin stpmax : ℚ) : LSResult :=
  if stp ≤ 0 then
    { status := LBFGSERR_INVALIDPARAMETERS, x := x0, f := f0, g := g0, stp := stp, evals := 0 }
  else
    let dginit := vecdot gp sdir
    if 0 < dginit then
      { status := LBFGSERR_INCREASEGRADIENT, x := x0, f := f0, g := g0, stp := stp, evals := 0 }
    else
      ls_loop ev param sdir xp f0 (param.f_dec_coeff * dginit) stpmin stpmax
        param.max_linesearch.toNat 0 stp

/-- The driver's mutable state at the top of the `while` loop of
`lbfgs_optimize`, plus instrumentation counters for evaluator calls and
progress-callback invocations. -/
structure OptState where
  x : Vec
  g : Vec
  xp : Vec
  gp : Vec
  d : Vec
  fx : ℚ
  step : ℚ
  k : Int
  endIdx : Nat
  lm : List iteration_data_t
  pf : List ℚ
  evals : Nat
  progressCalls : Nat
deriving DecidableEq

/-- The parameter validation block at the top of `lbfgs_optimize`
(the chain of early returns); `none` means validation passed. -/
def checkParams (n : Int) (param : lbfgs_parameter_t) : Option Int :=
  if n ≤ 0 then some LBFGSERR_INVALID_N
  else if param.mem_size ≤ 0 then some LBFGSERR_INVALID_MEMSIZE
  else if param.g_epsilon < 0 then some LBFGSERR_INVALID_GEPSILON
  else if param.past < 0 then some LBFGSERR_INVALID_TESTPERIOD
  else if param.delta < 0 then some LBFGSERR_INVALID_DELTA
  else if param.min_step < 0 then some LBFGSERR_INVALID_MINSTEP
  else if param.max_step < param.min_step then some LBFGSERR_INVALID_MAXSTEP
  else if param.f_dec_coeff < 0 then some LBFGSERR_INVALID_FDECCOEFF
  else if param.s_curv_coeff ≤ param.f_dec_coeff ∨ 1 ≤ param.s_curv_coeff then
    some LBFGSERR_INVALID_SCURVCOEFF
  else if param.xtol < 0 then some LBFGSERR_INVALID_XTOL
  else if param.max_linesearch ≤ 0 then some LBFGSERR_INVALID_MAXLINESEARCH
  else none

/-- The per-iteration step interval computation: `step_min`/`step_max`
defaults plus the optional dynamic step bound block.  Returns
`(step_max, step)` as left when the line search is entered.  Note the
source passes the snapshot buffer `xp` to `proc_stepbound` BEFORE copying
the current `x` into it. -/
def iterStep (cb : Callbacks) (param : lbfgs_parameter_t) (st : OptState) : ℚ × ℚ :=
  match cb.stepbound with
  | none => (param.max_step, st.step)
  | some sb =>
      let sm0 := sb st.xp st.d
      let sm := if sm0 < param.max_step then sm0 else param.max_step
      (sm, if st.step ≥ sm then sm / 2 else st.step)

/-- The line-search call made by one driver iteration: the snapshot
`(xp, gp) := (x, g)` is taken just before, so `xp`/`gp` arguments are the
current `st.x`/`st.g`. -/
def iterLS (cb : Callbacks) (param : lbfgs_parameter_t) (st : OptState) : LSResult :=
  line_search_backtracking cb.evaluate param st.x st.fx st.g (iterStep cb param st).2
    st.d st.x st.g param.min_step (iterStep cb param st).1

/-- Driver state after a failed line search: `x` and `g` are restored from
the snapshot (they already equal `st.x`/`st.g`), while `fx` and `step`
keep the values mutated in place by the search. -/
def lsFailState (st : OptState) (r : LSResult) : OptState :=
  { st with fx := r.f, step := r.stp, xp := st.x, gp := st.g, evals := st.evals + r.evals }

/-- Driver state after a successful line search: `x`, `g`, `fx`, `step`
take the search's output; `xp`, `gp` hold the pre-search snapshot. -/
def lsAcceptState (st : OptState) (r : LSResult) : OptState :=
  { st with
    x := r.x
    g := r.g
    fx := r.f
    step := r.stp
    xp := st.x
    gp := st.g
    evals := st.evals + r.evals }

/-- The stopping-criterion block guarded by `if (pf != NULL)`: when the
past buffer is enabled, run the rate test only once `past <= k`, and
store the current objective into `pf[k % past]` whenever the test does
not break out of the loop.  Returns the optional terminal status and the
updated buffer. -/
def stagnationUpdate (param : lbfgs_parameter_t) (k : Int) (fx : ℚ) (pf : List ℚ) :
    Option Int × List ℚ :=
  if pf = [] then (none, pf)
  else if param.past ≤ k then
    let rate := (pf.getD (k % param.past).toNat 0 - fx) / fx
    if |rate| < param.delta then (some LBFGS_STOP, pf)
    else (none, pf.set (k % param.past).toNat fx)
  else (none, pf.set (k % param.past).toNat fx)

/-- The first two-loop pass: `b` remaining iterations, current ring index
`j`; each iteration steps `j = (j + m - 1) % m`, computes
`alpha = (s_j . d) / ys_j`, stores it in the slot, and updates
`d -= alpha * y_j`.  Returns the mutated ring buffer, the updated `d`,
and the final `j`. -/
def twoLoopPass1 (mN : Nat) : Nat → Nat → List iteration_data_t → Vec →
    List iteration_data_t × Vec × Nat
  | 0, j, lm, d => (lm, d, j)
  | b + 1, j, lm, d =>
      let j1 := (j + mN - 1) % mN
      let it := lm.getD j1 default
      let a := vecdot it.s d / it.ys
      let lm1 := lm.set j1 { it with alpha := a }
      let d1 := vecadd d it.y (-a)
      twoLoopPass1 mN b j1 lm1 d1

/-- The second two-loop pass: each iteration computes
`beta = (y_j . d) / ys_j`, updates `d += (alpha_j - beta) * s_j` using the
`alpha` stored by the first pass, then steps `j = (j + 1) % m`. -/
def twoLoopPass2 (mN : Nat) : Nat → Nat → List iteration_data_t → Vec → Vec
  | 0, _, _, d => d
  | b + 1, j, lm, d =>
      let it := lm.getD j default
      let beta := vecdot it.y d / it.ys
      twoLoopPass2 mN b ((j + 1) % mN) lm (vecadd d it.s (it.alpha - beta))

/-- The end-of-iteration block of `lbfgs_optimize`: store
`s = x - xp`, `y = g - gp`, `ys`, into slot `end`; set
`bound = min(m, k)`; `++k`; advance `end`; recompute `d` by the two-loop
recursion and scale by `ys/yy`; reset the step guess to `1.0`. -/
def historyUpdate (param : lbfgs_parameter_t) (st : OptState) : OptState :=
  let mN := param.mem_size.toNat
  let s1 := vecdiff st.x st.xp
  let y1 := vecdiff st.g st.gp
  let ys := vecdot y1 s1
  let yy := vecdot y1 y1
  let e0 := st.lm.getD st.endIdx default
  let lm1 := st.lm.set st.endIdx { e0 with s := s1, y := y1, ys := ys }
  let bound := if param.mem_size ≤ st.k then param.mem_size else st.k
  let e1 := (st.endIdx + 1) % mN
  let d0 := vecncpy st.g
  let p1 := twoLoopPass1 mN bound.toNat e1 lm1 d0
  let d2 := vecscale p1.2.1 (ys / yy)
  let d3 := twoLoopPass2 mN bound.toNat p1.2.2 p1.1 d2
  { st with lm := p1.1, d := d3, k := st.k + 1, endIdx := e1, step := 1 }

/-- The tail of one driver iteration after the progress callback:
convergence test (with `xnorm` clamped to at least 1), stagnation test,
iteration cap, then history update.  `Sum.inl (ret, st)` exits the loop
with status `ret`; `Sum.inr st` continues. -/
def iterAfterProgress (rsqrt : ℚ → ℚ) (param : lbfgs_parameter_t) (st : OptState) :
    Sum (Int × OptState) OptState :=
  let xnorm := vec2norm rsqrt st.x
  let gnorm := vec2norm rsqrt st.g
  let xnorm1 := if xnorm < 1 then 1 else xnorm
  if gnorm / xnorm1 ≤ param.g_epsilon then Sum.inl (LBFGS_CONVERGENCE, st)
  else
    match stagnationUpdate param st.k st.fx st.pf with
    | (some ret, pf1) => Sum.inl (ret, { st with pf := pf1 })
    | (none, pf1) =>
        let st3 := { st with pf := pf1 }
        if param.max_iterations ≠ 0 ∧ param.max_iterations < st.k + 1 then
          Sum.inl (LBFGSERR_MAXIMUMITERATION, st3)
        else Sum.inr (historyUpdate param st3)

/-- One iteration of the `while` loop of `lbfgs_optimize`: step bounds,
snapshot, line search (failure restores the snapshot and exits with the
search's status), then the progress callback (a non-zero return exits
with that value), then the rest of the iteration. -/
def lbfgs_iteration (rsqrt : ℚ → ℚ) (cb : Callbacks) (param : lbfgs_parameter_t)
    (st : OptState) : Sum (Int × OptState) OptState :=
  let r := iterLS cb param st
  if r.status < 0 then Sum.inl (r.status, lsFailState st r)
  else
    let stA := lsAcceptState st r
    match cb.progress with
    | none => iterAfterProgress rsqrt param stA
    | some pr =>
        let ret := pr stA.x stA.g stA.fx (vec2norm rsqrt stA.x) (vec2norm rsqrt stA.g)
          stA.step stA.k r.status
        let stP := { stA with progressCalls := stA.progressCalls + 1 }
        if ret ≠ 0 then Sum.inl (ret, stP) else iterAfterProgress rsqrt param stP

/-- The fuelled driver loop; `none` means the fuel ran out while the
source loop would still be running. -/
def lbfgs_loop (rsqrt : ℚ → ℚ) (cb : Callbacks) (param : lbfgs_parameter_t) :
    Nat → OptState → Option (Int × OptState)
  | 0, _ => none
  | fuel + 1, st =>
      match lbfgs_iteration rsqrt cb param st with
      | Sum.inl r => some r
      | Sum.inr st1 => lbfgs_loop rsqrt cb param fuel st1

/-- The initialization section of `lbfgs_optimize` after validation:
allocate the (zeroed) work vectors and the `m` history slots, allocate
the past buffer when `0 < past`, make the first evaluator call, store
`pf[0] = fx`, set `d = -g`, the initial step `1/||d||`, `k = 1`,
`end = 0`. -/
def initState (rsqrt : ℚ → ℚ) (cb : Callbacks) (param : lbfgs_parameter_t)
    (n : Int) (x0 : Vec) : OptState :=
  let nN := n.toNat
  let mN := param.mem_size.toNat
  let lm0 := List.replicate mN
    ({ alpha := 0, s := List.replicate nN 0, y := List.replicate nN 0, ys := 0 } :
      iteration_data_t)
  let pf0 : List ℚ := if 0 < param.past then List.replicate param.past.toNat 0 else []
  let fg := cb.evaluate x0
  let pf1 := if 0 < param.past then pf0.set 0 fg.1 else pf0
  let d := vecncpy fg.2
  { x := x0
    g := fg.2
    xp := List.replicate nN 0
    gp := List.replicate nN 0
    d := d
    fx := fg.1
    step := vec2norminv rsqrt d
    k := 1
    endIdx := 0
    lm := lm0
    pf := pf1
    evals := 1
    progressCalls := 0 }

/-- What `lbfgs_optimize` communicates back to its caller: the returned
status, the final contents of the caller's `x` buffer, the value written
through `ptr_fx` (`none` on the validation-failure paths, which return
before that write), and the instrumentation counters. -/
structure OptResult where
  status : Int
  x : Vec
  ptr_fx : Option ℚ
  evals : Nat
  progressCalls : Nat
deriving DecidableEq

/-- `lbfgs_optimize`: validation, initialization, the
already-minimized test `gnorm / max(1, xnorm) <= g_epsilon`, then the
fuelled main loop. -/
def lbfgs_optimize (rsqrt : ℚ → ℚ) (fuel : Nat) (n : Int) (x0 : Vec)
    (cb : Callbacks) (param : lbfgs_parameter_t) : Option OptResult :=
  match checkParams n param with
  | some e => some { status := e, x := x0, ptr_fx := none, evals := 0, progressCalls := 0 }
  | none =>
      let st0 := initState rsqrt cb param n x0
      let xnorm := vec2norm rsqrt st0.x
      let gnorm := vec2norm rsqrt st0.g
      let xnorm1 := if xnorm < 1 then 1 else xnorm
      if gnorm / xnorm1 ≤ param.g_epsilon then
        some { status := LBFGS_ALREADY_MINIMIZED
               x := x0
               ptr_fx := some st0.fx
               evals := 1
               progressCalls := 0 }
      else
        match lbfgs_loop rsqrt cb param fuel st0 with
        | none => none
        | some (ret, stf) =>
            some { status := ret
                   x := stf.x
                   ptr_fx := some stf.fx
                   evals := stf.evals
                   progressCalls := stf.progressCalls }

/-! Claim-side definitions, transcribed from the specification's wording
rather than from the source, for the refinement claims. -/

/-- The domains the source's validation block actually enforces
(`f_dec_coeff` is only required to be nonnegative). -/
def checkedDomains (n : Int) (p : lbfgs_parameter_t) : Prop :=
  0 < n ∧ 0 < p.mem_size ∧ 0 ≤ p.g_epsilon ∧ 0 ≤ p.past ∧ 0 ≤ p.delta ∧
  0 ≤ p.min_step ∧ p.min_step ≤ p.max_step ∧ 0 ≤ p.f_dec_coeff ∧
  p.f_dec_coeff < p.s_curv_coeff ∧ p.s_curv_coeff < 1 ∧ 0 ≤ p.xtol ∧
  0 < p.max_linesearch

/-- The index of the `i`-th most recent valid history entry, counting
from `i = 0`, when the ring index after advancing is `e`: this is
`(e - 1 - i) mod m`, computed additively as `(e + (i+1)*(m-1)) mod m`. -/
def recentIdx (mN e i : Nat) : Nat := (e + (i + 1) * (mN - 1)) % mN

/-- The specification's first pass: for each listed entry `j` (most
recent first), `alpha_j = (s_j . d) / ys_j` and `d -= alpha_j * y_j`.
Returns the list of `alpha_j` in visit order and the final `d`. -/
def specAlphas (lm : List iteration_data_t) : List Nat → Vec → List ℚ × Vec
  | [], d => ([], d)
  | j :: rest, d =>
      let e := lm.getD j default
      let a := vecdot e.s d / e.ys
      let p := specAlphas lm rest (vecadd d e.y (-a))
      (a :: p.1, p.2)

/-- The specification's second pass: for each `(j, alpha_j)` (oldest
first), `beta_j = (y_j . d) / ys_j` and `d += (alpha_j - beta_j) * s_j`. -/
def specPass2 (lm : List iteration_data_t) : List (Nat × ℚ) → Vec → Vec
  | [], d => d
  | (j, a) :: rest, d =>
      let e := lm.getD j default
      let beta := vecdot e.y d / e.ys
      specPass2 lm rest (vecadd d e.s (a - beta))

/-- The new search direction as the specification describes it: start
from `-g`, run the first pass over the `bound` most recent entries, scale
by `ys/yy` of the most recent pair, then run the second pass from oldest
to most recent with the `alpha_j` of the first pass. -/
def claimDirection (mN bound e1 : Nat) (lm : List iteration_data_t) (g : Vec)
    (ys yy : ℚ) : Vec :=
  let idxs := (List.range bound).map (recentIdx mN e1)
  let p := specAlphas lm idxs (vecncpy g)
  specPass2 lm ((idxs.zip p.1).reverse) (vecscale p.2 (ys / yy))

/-! Concrete data used by witnesses and counterexamples. -/

/-- A concrete machine square root: exact on the argument values that
actually occur in the concrete runs below. -/
def rsqrtW (q : ℚ) : ℚ :=
  if q = 0 then 0 else if q = 1 then 1 else if q = 4 then 2 else if q = 100 then 10 else 0

/-- A concrete evaluator on one variable: `f(0)=10, f'(0)=1`;
`f(-1)=0, f'(-1)=2`. -/
def ev9 (x : Vec) : ℚ × Vec :=
  if x = [0] then (10, [1]) else if x = [-1] then (0, [2]) else (0, [0])

/-- An evaluator that is identically zero with zero gradient. -/
def evZ (_ : Vec) : ℚ × Vec := (0, [0])

/-- Callbacks: `ev9` with no step bound and no progress callback. -/
def cb9 : Callbacks := ⟨ev9, none, none⟩

/-- A progress callback that always cancels by returning 1. -/
def pr5 : Vec → Vec → ℚ → ℚ → ℚ → ℚ → Int → Int → Int := fun _ _ _ _ _ _ _ _ => 1

/-- Callbacks: `ev9` with the always-cancelling progress callback. -/
def cb5 : Callbacks := ⟨ev9, none, some pr5⟩

/-- Callbacks: the zero evaluator alone. -/
def cbZ : Callbacks := ⟨evZ, none, none⟩

/-- A concrete evaluator for the step-bound scenario: `f(5)=25` with
gradient 2. -/
def ev8 (x : Vec) : ℚ × Vec := if x = [5] then (25, [2]) else (0, [0])

/-- A step-bound provider that answers 100 when handed the true starting
point `[5]` and `1/10` otherwise (in particular on the zeroed snapshot
buffer). -/
def sb8 (xp : Vec) (_ : Vec) : ℚ := if xp = [5] then 100 else 1 / 10

/-- Callbacks for the step-bound scenario. -/
def cb8 : Callbacks := ⟨ev8, some sb8, none⟩

/-- The driver state at the top of the first iteration for the `ev9` run
started at `x0 = [0]` with default parameters. -/
def st9 : OptState := initState rsqrtW cb9 _default_param 1 [0]

/-- The driver state of the `ev9` run after iteration 1 accepts the step
to `[-1]`, before the history update. -/
def st9A : OptState := lsAcceptState st9 (iterLS cb9 _default_param st9)

/-- The driver state at the top of the second iteration of the `ev9`
run: iteration 1 accepts the step to `[-1]` and the two-loop recursion
produces the ascent direction `[2]`. -/
def st9b : OptState := historyUpdate _default_param st9A

/-- The driver state at the top of the first iteration for the
step-bound scenario started at `x0 = [5]`. -/
def st8 : OptState := initState rsqrtW cb8 _default_param 1 [5]

/-- The configuration with a zero sufficient-decrease coefficient (which
violates the specified domain `0 < c1` but passes the source's check
`f_dec_coeff < 0`). -/
def cfgC1 : lbfgs_parameter_t := { _default_param with f_dec_coeff := 0 }

/-- Default parameters with a stagnation window of 2. -/
def p7 : lbfgs_parameter_t := { _default_param with past := 2 }

/-- Default parameters with a negative iteration cap. -/
def p10 : lbfgs_parameter_t := { _default_param with max_iterations := -3 }

/-- A concrete mid-run driver state (one variable, no history) used to
exercise the iteration-cap branch. -/
def stX : OptState :=
  { x := [-1]
    g := [2]
    xp := [0]
    gp := [1]
    d := [2]
    fx := 0
    step := 1
    k := 1
    endIdx := 0
    lm := []
    pf := []
    evals := 2
    progressCalls := 0 }

/-- The state at the top of iteration 1 for the `ev9` run with a
stagnation window of 2. -/
def st7 : OptState := initState rsqrtW cb9 p7 1 [0]

/-- A configuration with an invalid memory size. -/
def cfgBadM : lbfgs_parameter_t := { _default_param with mem_size := 0 }

/-! Lemmas about the backtracking line search. -/

/-- Invariant established by every exit of `ls_loop`: the returned `x` is
the last trial point `xp + stp*s`, the returned `f`, `g` are that trial's
evaluation, the returned step arose from the entry step by halvings with
one evaluator call each, a positive status is the evaluator-call count of
a trial satisfying the sufficient-decrease test, and a negative status is
one of the three in-loop failure codes with its triggering condition. -/
def LSInv (param : lbfgs_parameter_t) (ev : Vec → ℚ × Vec) (sdir xp : Vec)
    (finit dgtest stpmin stpmax : ℚ) (count : Int) (stp : ℚ) (r : LSResult) : Prop :=
  r.x = vecadd xp sdir r.stp ∧
  ev r.x = (r.f, r.g) ∧
  (∃ t : Nat, r.stp = stp * (1 / 2) ^ t ∧ (r.evals : Int) = count + t + 1) ∧
  (0 < r.status → r.status = (r.evals : Int) ∧ r.f ≤ finit + r.stp * dgtest) ∧
  (r.status < 0 →
    (r.status = LBFGSERR_MINIMUMSTEP ∧ r.stp < stpmin ∨
     r.status = LBFGSERR_MAXIMUMSTEP ∧ stpmax < r.stp ∨
     r.status = LBFGSERR_MAXIMUMLINESEARCH ∧ param.max_linesearch ≤ (r.evals : Int)))

theorem ls_loop_spec (ev : Vec → ℚ × Vec) (param : lbfgs_parameter_t) (sdir xp : Vec)
    (finit dgtest stpmin stpmax : ℚ) :
    ∀ (fuel : Nat) (count : Int) (stp : ℚ),
      (param.max_linesearch - count).toNat ≤ fuel → 0 ≤ count →
      LSInv param ev sdir xp finit dgtest stpmin stpmax count stp
        (ls_loop ev param sdir xp finit dgtest stpmin stpmax fuel count stp) := by
  intro fuel
  induction fuel with
  | zero =>
      intro count stp hf h0
      rw [ls_loop]
      simp only [LSInv]
      split_ifs with h1 h2 h3 h4
      all_goals try dsimp only
      · exact ⟨rfl, Prod.mk.eta.symm, ⟨0, by rw [pow_zero, mul_one], by omega⟩,
          fun _ => ⟨by omega, h1⟩, fun hneg => absurd hneg (by omega)⟩
      · refine ⟨rfl, Prod.mk.eta.symm, ⟨0, by rw [pow_zero, mul_one], by omega⟩, ?_, ?_⟩
        · intro hpos
          exact absurd hpos (by norm_num [LBFGSERR_MINIMUMSTEP])
        · intro _
          exact Or.inl ⟨rfl, h2⟩
      · refine ⟨rfl, Prod.mk.eta.symm, ⟨0, by rw [pow_zero, mul_one], by omega⟩, ?_, ?_⟩
        · intro hpos
          exact absurd hpos (by norm_num [LBFGSERR_MAXIMUMSTEP])
        · intro _
          exact Or.inr (Or.inl ⟨rfl, h3⟩)
      · refine ⟨rfl, Prod.mk.eta.symm, ⟨0, by rw [pow_zero, mul_one], by omega⟩, ?_, ?_⟩
        · intro hpos
          exact absurd hpos (by norm_num [LBFGSERR_MAXIMUMLINESEARCH])
        · intro _
          exact Or.inr (Or.inr ⟨rfl, by omega⟩)
      · exact absurd hf (by omega)
  | succ fuel ih =>
      intro count stp hf h0
      rw [ls_loop]
      simp only [LSInv]
      split_ifs with h1 h2 h3 h4
      all_goals try dsimp only
      · exact ⟨rfl, Prod.mk.eta.symm, ⟨0, by rw [pow_zero, mul_one], by omega⟩,
          fun _ => ⟨by omega, h1⟩, fun hneg => absurd hneg (by omega)⟩
      · refine ⟨rfl, Prod.mk.eta.symm, ⟨0, by rw [pow_zero, mul_one], by omega⟩, ?_, ?_⟩
        · intro hpos
          exact absurd hpos (by norm_num [LBFGSERR_MINIMUMSTEP])
        · intro _
          exact Or.inl ⟨rfl, h2⟩
      · refine ⟨rfl, Prod.mk.eta.symm, ⟨0, by rw [pow_zero, mul_one], by omega⟩, ?_, ?_⟩
        · intro hpos
          exact absurd hpos (by norm_num [LBFGSERR_MAXIMUMSTEP])
        · intro _
          exact Or.inr (Or.inl ⟨rfl, h3⟩)
      · refine ⟨rfl, Prod.mk.eta.symm, ⟨0, by rw [pow_zero, mul_one], by omega⟩, ?_, ?_⟩
        · intro hpos
          exact absurd hpos (by norm_num [LBFGSERR_MAXIMUMLINESEARCH])
        · intro _
          exact Or.inr (Or.inr ⟨rfl, by omega⟩)
      · have hspec := ih (count + 1) (stp * (1 / 2)) (by omega) (by omega)
        obtain ⟨hx, hev, ⟨t, ht, hevals⟩, hpos, hneg⟩ := hspec
        refine ⟨hx, hev, ⟨t + 1, ?_, by push_cast at hevals ⊢; omega⟩, hpos, hneg⟩
        rw [ht]; ring

theorem line_search_cases (ev : Vec → ℚ × Vec) (param : lbfgs_parameter_t)
    (x0 : Vec) (f0 : ℚ) (g0 : Vec) (stp0 : ℚ) (sdir xp gp : Vec) (stpmin stpmax : ℚ) :
    (stp0 ≤ 0 →
      line_search_backtracking ev param x0 f0 g0 stp0 sdir xp gp stpmin stpmax =
        ⟨LBFGSERR_INVALIDPARAMETERS, x0, f0, g0, stp0, 0⟩) ∧
    (0 < stp0 → 0 < vecdot gp sdir →
      line_search_backtracking ev param x0 f0 g0 stp0 sdir xp gp stpmin stpmax =
        ⟨LBFGSERR_INCREASEGRADIENT, x0, f0, g0, stp0, 0⟩) ∧
    (0 < stp0 → ¬ 0 < vecdot gp sdir →
      line_search_backtracking ev param x0 f0 g0 stp0 sdir xp gp stpmin stpmax =
        ls_loop ev param sdir xp f0 (param.f_dec_coeff * vecdot gp sdir) stpmin stpmax
          param.max_linesearch.toNat 0 stp0) := by
  refine ⟨?_, ?_, ?_⟩
  · intro h
    rw [line_search_backtracking, if_pos h]
  · intro h hd
    rw [line_search_backtracking, if_neg (not_le.mpr h)]
    simp only [if_pos hd]
  · intro h hd
    rw [line_search_backtracking, if_neg (not_le.mpr h)]
    simp only [if_neg hd]

/-- C2: the line search's entry checks.  The claim as written says the
non-descent check fires when `gp·d ≥ 0`; the source checks `0 < gp·d`
strictly, so the theorem states the two checks as the code performs
them: a nonpositive entry step returns `LBFGSERR_INVALIDPARAMETERS` with
zero evaluator calls, and a strictly positive directional derivative
returns `LBFGSERR_INCREASEGRADIENT` with zero evaluator calls, the
buffers untouched in both cases. -/
theorem C2_entry_checks (ev : Vec → ℚ × Vec) (param : lbfgs_parameter_t)
    (x0 : Vec) (f0 : ℚ) (g0 : Vec) (stp0 : ℚ) (sdir xp gp : Vec) (stpmin stpmax : ℚ) :
    (stp0 ≤ 0 →
      line_search_backtracking ev param x0 f0 g0 stp0 sdir xp gp stpmin stpmax =
        ⟨LBFGSERR_INVALIDPARAMETERS, x0, f0, g0, stp0, 0⟩) ∧
    (0 < stp0 → 0 < vecdot gp sdir →
      line_search_backtracking ev param x0 f0 g0 stp0 sdir xp gp stpmin stpmax =
        ⟨LBFGSERR_INCREASEGRADIENT, x0, f0, g0, stp0, 0⟩) :=
  ⟨(line_search_cases ev param x0 f0 g0 stp0 sdir xp gp stpmin stpmax).1,
   (line_search_cases ev param x0 f0 g0 stp0 sdir xp gp stpmin stpmax).2.1⟩

/-- C2 witness: a concrete nonpositive entry step returns
`LBFGSERR_INVALIDPARAMETERS` with zero evaluator calls. -/
theorem C2_witness :
    line_search_backtracking evZ _default_param [0] 5 [0] 0 [1] [0] [0] 0 100 =
      ⟨LBFGSERR_INVALIDPARAMETERS, [0], 5, [0], 0, 0⟩ :=
  (C2_entry_checks evZ _default_param [0] 5 [0] 0 [1] [0] [0] 0 100).1 (by norm_num)

/-- C2 counterexample: with `gp·d = 0` the claim says the search returns
`IncreasingGradientDirection` with no evaluator call; the source's strict
check lets the search proceed and here it succeeds after one evaluator
call. -/
theorem C2_counterexample :
    vecdot [(0 : ℚ)] [1] = 0 ∧
    (line_search_backtracking evZ _default_param [0] 5 [0] 1 [1] [0] [0] 0 100).status = 1 ∧
    (line_search_backtracking evZ _default_param [0] 5 [0] 1 [1] [0] [0] 0 100).evals = 1 := by
  refine ⟨by with_unfolding_all decide, by with_unfolding_all decide,
    by with_unfolding_all decide⟩

/-- C3: the success contract of the backtracking search.  On success the
returned value is the positive count of evaluator calls, `x = xp + stp*d`
with `(f, g)` the evaluation there, the sufficient-decrease inequality
holds, and the accepted step is the entry step contracted by `0.5` once
per rejected trial; a failure is one of `LBFGSERR_MINIMUMSTEP`,
`LBFGSERR_MAXIMUMSTEP`, `LBFGSERR_MAXIMUMLINESEARCH` with the triggering
condition.  (The claim's assertion that the accepted step lies within
`[stpmin, stpmax]` is dropped: the bounds are checked only on trials that
fail the sufficient-decrease test, see `C3_counterexample`.) -/
theorem C3_success_contract (ev : Vec → ℚ × Vec) (param : lbfgs_parameter_t)
    (x0 : Vec) (f0 : ℚ) (g0 : Vec) (stp0 : ℚ) (sdir xp gp : Vec) (stpmin stpmax : ℚ)
    (hstp : 0 < stp0) (hdg : ¬ 0 < vecdot gp sdir) :
    (0 < (line_search_backtracking ev param x0 f0 g0 stp0 sdir xp gp stpmin stpmax).status →
      (line_search_backtracking ev param x0 f0 g0 stp0 sdir xp gp stpmin stpmax).status =
        ((line_search_backtracking ev param x0 f0 g0 stp0 sdir xp gp stpmin stpmax).evals : Int) ∧
      0 < (line_search_backtracking ev param x0 f0 g0 stp0 sdir xp gp stpmin stpmax).evals ∧
      (line_search_backtracking ev param x0 f0 g0 stp0 sdir xp gp stpmin stpmax).x =
        vecadd xp sdir (line_search_backtracking ev param x0 f0 g0 stp0 sdir xp gp stpmin stpmax).stp ∧
      ev (line_search_backtracking ev param x0 f0 g0 stp0 sdir xp gp stpmin stpmax).x =
        ((line_search_backtracking ev param x0 f0 g0 stp0 sdir xp gp stpmin stpmax).f,
         (line_search_backtracking ev param x0 f0 g0 stp0 sdir xp gp stpmin stpmax).g) ∧
      (line_search_backtracking ev param x0 f0 g0 stp0 sdir xp gp stpmin stpmax).f ≤
        f0 + param.f_dec_coeff *
          (line_search_backtracking ev param x0 f0 g0 stp0 sdir xp gp stpmin stpmax).stp *
          vecdot gp sdir ∧
      (∃ t : Nat,
        (line_search_backtracking ev param x0 f0 g0 stp0 sdir xp gp stpmin stpmax).stp =
          stp0 * (1 / 2) ^ t ∧
        (line_search_backtracking ev param x0 f0 g0 stp0 sdir xp gp stpmin stpmax).status =
          (t : Int) + 1)) ∧
    ((line_search_backtracking ev param x0 f0 g0 stp0 sdir xp gp stpmin stpmax).status < 0 →
      ((line_search_backtracking ev param x0 f0 g0 stp0 sdir xp gp stpmin stpmax).status =
          LBFGSERR_MINIMUMSTEP ∧
        (line_search_backtracking ev param x0 f0 g0 stp0 sdir xp gp stpmin stpmax).stp < stpmin ∨
       (line_search_backtracking ev param x0 f0 g0 stp0 sdir xp gp stpmin stpmax).status =
          LBFGSERR_MAXIMUMSTEP ∧
        stpmax < (line_search_backtracking ev param x0 f0 g0 stp0 sdir xp gp stpmin stpmax).stp ∨
       (line_search_backtracking ev param x0 f0 g0 stp0 sdir xp gp stpmin stpmax).status =
          LBFGSERR_MAXIMUMLINESEARCH ∧
        param.max_linesearch ≤
          ((line_search_backtracking ev param x0 f0 g0 stp0 sdir xp gp stpmin stpmax).evals : Int))) := by
  rw [(line_search_cases ev param x0 f0 g0 stp0 sdir xp gp stpmin stpmax).2.2 hstp hdg]
  have hspec := ls_loop_spec ev param sdir xp f0 (param.f_dec_coeff * vecdot gp sdir)
    stpmin stpmax param.max_linesearch.toNat 0 stp0 (by omega) le_rfl
  obtain ⟨hx, hev, ⟨t, ht, hevals⟩, hpos, hneg⟩ := hspec
  constructor
  · intro h
    obtain ⟨hse, harmijo⟩ := hpos h
    refine ⟨hse, by omega, hx, hev, ?_, ⟨t, ht, by omega⟩⟩
    calc (ls_loop ev param sdir xp f0 (param.f_dec_coeff * vecdot gp sdir) stpmin stpmax
            param.max_linesearch.toNat 0 stp0).f ≤
        f0 + (ls_loop ev param sdir xp f0 (param.f_dec_coeff * vecdot gp sdir) stpmin stpmax
            param.max_linesearch.toNat 0 stp0).stp *
          (param.f_dec_coeff * vecdot gp sdir) := harmijo
      _ = f0 + param.f_dec_coeff *
          (ls_loop ev param sdir xp f0 (param.f_dec_coeff * vecdot gp sdir) stpmin stpmax
            param.max_linesearch.toNat 0 stp0).stp * vecdot gp sdir := by ring
  · exact hneg

/-- C3 witness: a concrete successful search (descent direction `[1]`
against gradient `[-1]`, entry step 1) returns status 1 equal to its
evaluator-call count. -/
theorem C3_witness :
    (line_search_backtracking evZ _default_param [0] 5 [0] 1 [1] [0] [-1] 0 100).status =
      ((line_search_backtracking evZ _default_param [0] 5 [0] 1 [1] [0] [-1] 0 100).evals : Int) :=
  (((C3_success_contract evZ _default_param [0] 5 [0] 1 [1] [0] [-1] 0 100
      (by norm_num) (by with_unfolding_all decide)).1) (by with_unfolding_all decide)).1

/-- C3 counterexample: with step bounds `[stpmin, stpmax] = [0, 1]` and
entry step 4, the first trial already satisfies sufficient decrease, so
the search succeeds with accepted step `4 > stpmax`: the accepted step
does not lie within `[stepmin, stepmax]` as the claim asserts. -/
theorem C3_counterexample :
    (line_search_backtracking evZ _default_param [0] 5 [0] 4 [1] [0] [-1] 0 1).status = 1 ∧
    (line_search_backtracking evZ _default_param [0] 5 [0] 4 [1] [0] [-1] 0 1).stp = 4 ∧
    ¬ (line_search_backtracking evZ _default_param [0] 5 [0] 4 [1] [0] [-1] 0 1).stp ≤ 1 := by
  refine ⟨by with_unfolding_all decide, by with_unfolding_all decide,
    by with_unfolding_all decide⟩

end LbfgsLite

namespace LbfgsLite

/-! Lemmas about the driver loop. -/

theorem iterAfterProgress_inr (rsqrt : ℚ → ℚ) (param : lbfgs_parameter_t)
    (s st' : OptState) (h : iterAfterProgress rsqrt param s = Sum.inr st') :
    st' = historyUpdate param { s with pf := (stagnationUpdate param s.k s.fx s.pf).2 } := by
  rcases hsu : stagnationUpdate param s.k s.fx s.pf with ⟨o, pf1⟩
  dsimp only
  simp only [iterAfterProgress] at h
  rw [hsu] at h
  cases o with
  | some ret =>
      dsimp only at h
      split_ifs at h
  | none =>
      dsimp only at h
      split_ifs at h
      all_goals (injection h with h; exact h.symm)

theorem lbfgs_iteration_inr (rsqrt : ℚ → ℚ) (cb : Callbacks) (param : lbfgs_parameter_t)
    (st st' : OptState) (h : lbfgs_iteration rsqrt cb param st = Sum.inr st') :
    ∃ stC : OptState, st' = historyUpdate param stC ∧
      stC.x = (iterLS cb param st).x ∧ stC.g = (iterLS cb param st).g ∧
      stC.fx = (iterLS cb param st).f ∧
      stC.xp = st.x ∧ stC.gp = st.g ∧ stC.k = st.k := by
  by_cases hls : (iterLS cb param st).status < 0
  · rw [lbfgs_iteration] at h
    rw [if_pos hls] at h
    injection h
  · rw [lbfgs_iteration] at h
    rw [if_neg hls] at h
    cases hp : cb.progress with
    | none =>
        rw [hp] at h
        exact ⟨_, iterAfterProgress_inr rsqrt param _ st' h, rfl, rfl, rfl, rfl, rfl, rfl⟩
    | some pr =>
        rw [hp] at h
        dsimp only at h
        split_ifs at h with hret
        exact ⟨_, iterAfterProgress_inr rsqrt param _ st' h, rfl, rfl, rfl, rfl, rfl, rfl⟩

/-- C4: when the line search fails, the driver restores `(x, g)` from the
pre-search snapshot (which equals the state's `x`, `g` at the top of the
iteration) and the loop terminates returning exactly the line search's
failure status. -/
theorem C4_failure_restores (rsqrt : ℚ → ℚ) (cb : Callbacks) (param : lbfgs_parameter_t)
    (fuel : Nat) (st : OptState)
    (h : (iterLS cb param st).status < 0) :
    lbfgs_loop rsqrt cb param (fuel + 1) st =
      some ((iterLS cb param st).status, lsFailState st (iterLS cb param st)) ∧
    (lsFailState st (iterLS cb param st)).x = st.x ∧
    (lsFailState st (iterLS cb param st)).g = st.g := by
  have hit : lbfgs_iteration rsqrt cb param st =
      Sum.inl ((iterLS cb param st).status, lsFailState st (iterLS cb param st)) := by
    rw [lbfgs_iteration]
    simp only [if_pos h]
  exact ⟨by simp only [lbfgs_loop, hit], rfl, rfl⟩

/-- C4 witness: at the concrete state `st9b` the recomputed direction is
an ascent direction, the line search fails with
`LBFGSERR_INCREASEGRADIENT`, and the driver returns it with `x`, `g`
unchanged. -/
theorem C4_witness :
    lbfgs_loop rsqrtW cb9 _default_param 1 st9b =
      some ((iterLS cb9 _default_param st9b).status,
        lsFailState st9b (iterLS cb9 _default_param st9b)) ∧
    (lsFailState st9b (iterLS cb9 _default_param st9b)).x = st9b.x ∧
    (lsFailState st9b (iterLS cb9 _default_param st9b)).g = st9b.g :=
  C4_failure_restores rsqrtW cb9 _default_param 0 st9b (by with_unfolding_all decide)

/-- C9: on a line-search failure the driver restores `x` and `g` from the
snapshot but keeps the objective mutated in place by the search: the
terminal state's `fx` is the search's final `f`, which is the evaluator's
value at the last evaluated trial point when at least one evaluator call
was made, and the unchanged pre-search objective (the value at the
restored `x`) when none was. -/
theorem C9_fx_not_restored (rsqrt : ℚ → ℚ) (cb : Callbacks) (param : lbfgs_parameter_t)
    (st : OptState) (h : (iterLS cb param st).status < 0) :
    lbfgs_iteration rsqrt cb param st =
      Sum.inl ((iterLS cb param st).status, lsFailState st (iterLS cb param st)) ∧
    (lsFailState st (iterLS cb param st)).x = st.x ∧
    (lsFailState st (iterLS cb param st)).g = st.g ∧
    (lsFailState st (iterLS cb param st)).fx = (iterLS cb param st).f ∧
    (0 < (iterLS cb param st).evals →
      cb.evaluate (iterLS cb param st).x = ((iterLS cb param st).f, (iterLS cb param st).g) ∧
      (iterLS cb param st).x = vecadd st.x st.d (iterLS cb param st).stp) ∧
    ((iterLS cb param st).evals = 0 → (iterLS cb param st).f = st.fx) := by
  have hcases :
      (0 < (iterLS cb param st).evals →
        cb.evaluate (iterLS cb param st).x = ((iterLS cb param st).f, (iterLS cb param st).g) ∧
        (iterLS cb param st).x = vecadd st.x st.d (iterLS cb param st).stp) ∧
      ((iterLS cb param st).evals = 0 → (iterLS cb param st).f = st.fx) := by
    by_cases hstp : (iterStep cb param st).2 ≤ 0
    · have hr : iterLS cb param st =
          ⟨LBFGSERR_INVALIDPARAMETERS, st.x, st.fx, st.g, (iterStep cb param st).2, 0⟩ := by
        rw [iterLS]
        exact (line_search_cases cb.evaluate param st.x st.fx st.g (iterStep cb param st).2
          st.d st.x st.g param.min_step (iterStep cb param st).1).1 hstp
      rw [hr]
      exact ⟨fun h0 => absurd h0 (by norm_num), fun _ => rfl⟩
    · by_cases hdg : 0 < vecdot st.g st.d
      · have hr : iterLS cb param st =
            ⟨LBFGSERR_INCREASEGRADIENT, st.x, st.fx, st.g, (iterStep cb param st).2, 0⟩ := by
          rw [iterLS]
          exact (line_search_cases cb.evaluate param st.x st.fx st.g (iterStep cb param st).2
            st.d st.x st.g param.min_step (iterStep cb param st).1).2.1 (lt_of_not_le hstp) hdg
        rw [hr]
        exact ⟨fun h0 => absurd h0 (by norm_num), fun _ => rfl⟩
      · have hr : iterLS cb param st = ls_loop cb.evaluate param st.d st.x st.fx
            (param.f_dec_coeff * vecdot st.g st.d) param.min_step (iterStep cb param st).1
            param.max_linesearch.toNat 0 (iterStep cb param st).2 := by
          rw [iterLS]
          exact (line_search_cases cb.evaluate param st.x st.fx st.g (iterStep cb param st).2
            st.d st.x st.g param.min_step (iterStep cb param st).1).2.2 (lt_of_not_le hstp) hdg
        obtain ⟨hx, hev, ⟨t, ht, hevals⟩, _, _⟩ := ls_loop_spec cb.evaluate param st.d st.x
          st.fx (param.f_dec_coeff * vecdot st.g st.d) param.min_step (iterStep cb param st).1
          param.max_linesearch.toNat 0 (iterStep cb param st).2 (by omega) le_rfl
        rw [hr]
        constructor
        · intro _
          exact ⟨hev, hx⟩
        · intro h0
          rw [h0] at hevals
          exact absurd hevals (by push_cast; omega)
  refine ⟨?_, rfl, rfl, rfl, hcases.1, hcases.2⟩
  rw [lbfgs_iteration]
  simp only [if_pos h]

set_option maxRecDepth 400000 in
/-- C9 counterexample: in the concrete `ev9` run the second iteration's
line search fails with `LBFGSERR_INCREASEGRADIENT` before any evaluator
call, so the value written through `ptr_fx` is exactly the objective at
the restored (returned) `x = [-1]`, contradicting the claim that the
written value is never the objective at the restored point. -/
theorem C9_counterexample :
    lbfgs_optimize rsqrtW 5 1 [0] cb9 _default_param =
      some { status := LBFGSERR_INCREASEGRADIENT, x := [-1], ptr_fx := some ((ev9 [-1]).1),
             evals := 2, progressCalls := 0 } ∧
    (ev9 [-1]).1 = 0 := by
  exact ⟨by with_unfolding_all decide, by with_unfolding_all decide⟩

/-- C5 (amended): when the line search succeeds and the progress callback
returns a non-zero value `ret`, the loop terminates returning `ret`
itself as the status (not `LBFGSERR_CANCELED`), the returned `x` is the
`x` passed into that same callback invocation, and the callback was
invoked exactly once in the iteration. -/
theorem C5_cancel_returns_callback_value (rsqrt : ℚ → ℚ) (cb : Callbacks)
    (param : lbfgs_parameter_t) (fuel : Nat) (st : OptState)
    (pr : Vec → Vec → ℚ → ℚ → ℚ → ℚ → Int → Int → Int)
    (hpr : cb.progress = some pr)
    (hok : 0 ≤ (iterLS cb param st).status)
    (hret : pr (lsAcceptState st (iterLS cb param st)).x
        (lsAcceptState st (iterLS cb param st)).g
        (lsAcceptState st (iterLS cb param st)).fx
        (vec2norm rsqrt (lsAcceptState st (iterLS cb param st)).x)
        (vec2norm rsqrt (lsAcceptState st (iterLS cb param st)).g)
        (lsAcceptState st (iterLS cb param st)).step
        (lsAcceptState st (iterLS cb param st)).k
        (iterLS cb param st).status ≠ 0) :
    lbfgs_loop rsqrt cb param (fuel + 1) st =
      some (pr (lsAcceptState st (iterLS cb param st)).x
          (lsAcceptState st (iterLS cb param st)).g
          (lsAcceptState st (iterLS cb param st)).fx
          (vec2norm rsqrt (lsAcceptState st (iterLS cb param st)).x)
          (vec2norm rsqrt (lsAcceptState st (iterLS cb param st)).g)
          (lsAcceptState st (iterLS cb param st)).step
          (lsAcceptState st (iterLS cb param st)).k
          (iterLS cb param st).status,
        { lsAcceptState st (iterLS cb param st) with
            progressCalls := (lsAcceptState st (iterLS cb param st)).progressCalls + 1 }) ∧
    (lsAcceptState st (iterLS cb param st)).x = (iterLS cb param st).x ∧
    ({ lsAcceptState st (iterLS cb param st) with
        progressCalls := (lsAcceptState st (iterLS cb param st)).progressCalls + 1 }).progressCalls =
      st.progressCalls + 1 := by
  have hit : lbfgs_iteration rsqrt cb param st =
      Sum.inl (pr (lsAcceptState st (iterLS cb param st)).x
          (lsAcceptState st (iterLS cb param st)).g
          (lsAcceptState st (iterLS cb param st)).fx
          (vec2norm rsqrt (lsAcceptState st (iterLS cb param st)).x)
          (vec2norm rsqrt (lsAcceptState st (iterLS cb param st)).g)
          (lsAcceptState st (iterLS cb param st)).step
          (lsAcceptState st (iterLS cb param st)).k
          (iterLS cb param st).status,
        { lsAcceptState st (iterLS cb param st) with
            progressCalls := (lsAcceptState st (iterLS cb param st)).progressCalls + 1 }) := by
    rw [lbfgs_iteration]
    rw [if_neg (not_lt.mpr hok), hpr]
    dsimp only
    rw [if_pos hret]
  exact ⟨by simp only [lbfgs_loop, hit], rfl, rfl⟩

/-- C5 witness: the cancel theorem applied to the concrete run `st9` with
the always-cancelling callback `pr5`. -/
theorem C5_witness :
    (lsAcceptState st9 (iterLS cb5 _default_param st9)).x = (iterLS cb5 _default_param st9).x ∧
    ({ lsAcceptState st9 (iterLS cb5 _default_param st9) with
        progressCalls := (lsAcceptState st9 (iterLS cb5 _default_param st9)).progressCalls + 1 }).progressCalls =
      st9.progressCalls + 1 := by
  have h := C5_cancel_returns_callback_value rsqrtW cb5 _default_param 0 st9 pr5 rfl
    (by with_unfolding_all decide) (by with_unfolding_all decide)
  exact ⟨h.2.1, h.2.2⟩

set_option maxRecDepth 400000 in
/-- C5 counterexample: a progress callback returning 1 cancels the run,
and `lbfgs_optimize` returns status 1 (which is `LBFGS_STOP`), not
`LBFGSERR_CANCELED`. -/
theorem C5_counterexample :
    lbfgs_optimize rsqrtW 5 1 [0] cb5 _default_param =
      some { status := 1, x := [-1], ptr_fx := some 0, evals := 2, progressCalls := 1 } ∧
    (1 : Int) ≠ LBFGSERR_CANCELED := by
  exact ⟨by with_unfolding_all decide, by with_unfolding_all decide⟩

/-- C10: `max_iterations` is the one configuration field validation never
examines (changing it never changes the validation outcome), and because
the cap test is `max_iterations != 0 and max_iterations < k + 1`, every
negative value trips it already at `k = 1`: an iteration that passes the
convergence and stagnation tests terminates with
`LBFGSERR_MAXIMUMITERATION`. -/
theorem C10_negative_cap (rsqrt : ℚ → ℚ) (param : lbfgs_parameter_t) (st : OptState)
    (n : Int) (v : Int) :
    (checkParams n { param with max_iterations := v } = checkParams n param) ∧
    (param.max_iterations < 0 → 1 ≤ st.k →
      ¬ vec2norm rsqrt st.g /
          (if vec2norm rsqrt st.x < 1 then 1 else vec2norm rsqrt st.x) ≤ param.g_epsilon →
      (stagnationUpdate param st.k st.fx st.pf).1 = none →
      iterAfterProgress rsqrt param st =
        Sum.inl (LBFGSERR_MAXIMUMITERATION,
          { st with pf := (stagnationUpdate param st.k st.fx st.pf).2 })) := by
  constructor
  · rfl
  · intro hneg hk hconv hstag
    rcases hsu : stagnationUpdate param st.k st.fx st.pf with ⟨o, pf1⟩
    rw [hsu] at hstag
    dsimp only at hstag
    subst hstag
    rw [iterAfterProgress]
    rw [if_neg hconv, hsu]
    dsimp only
    rw [if_pos ⟨by omega, by omega⟩]

/-- C10 witness: the cap theorem at the concrete state `stX` with
`max_iterations = -3`: the iteration terminates with
`LBFGSERR_MAXIMUMITERATION` at `k = 1`. -/
theorem C10_witness :
    iterAfterProgress rsqrtW p10 stX =
      Sum.inl (LBFGSERR_MAXIMUMITERATION,
        { stX with pf := (stagnationUpdate p10 stX.k stX.fx stX.pf).2 }) :=
  (C10_negative_cap rsqrtW p10 stX 1 (-5)).2 (by with_unfolding_all decide)
    (by with_unfolding_all decide) (by with_unfolding_all decide)
    (by with_unfolding_all decide)

/-- C1 (amended): each configuration check of `lbfgs_optimize`, in
source order: a violated domain returns the corresponding InvalidX
status before any evaluator call (`evals = 0`, `x` untouched, `ptr_fx`
unwritten), and every configuration satisfying the checked domains
passes validation.  The checked domain for the sufficient-decrease
coefficient is `0 <= f_dec_coeff` (the specification's `0 < c1` is not
what the source enforces, see `C1_counterexample`). -/
theorem C1_validation (rsqrt : ℚ → ℚ) (fuel : Nat) (n : Int) (x0 : Vec) (cb : Callbacks)
    (param : lbfgs_parameter_t) :
    (∀ e, checkParams n param = some e →
      lbfgs_optimize rsqrt fuel n x0 cb param =
        some { status := e, x := x0, ptr_fx := none, evals := 0, progressCalls := 0 }) ∧
    (n ≤ 0 → checkParams n param = some LBFGSERR_INVALID_N) ∧
    (0 < n → param.mem_size ≤ 0 → checkParams n param = some LBFGSERR_INVALID_MEMSIZE) ∧
    (0 < n → 0 < param.mem_size → param.g_epsilon < 0 →
      checkParams n param = some LBFGSERR_INVALID_GEPSILON) ∧
    (0 < n → 0 < param.mem_size → 0 ≤ param.g_epsilon → param.past < 0 →
      checkParams n param = some LBFGSERR_INVALID_TESTPERIOD) ∧
    (0 < n → 0 < param.mem_size → 0 ≤ param.g_epsilon → 0 ≤ param.past →
      param.delta < 0 → checkParams n param = some LBFGSERR_INVALID_DELTA) ∧
    (0 < n → 0 < param.mem_size → 0 ≤ param.g_epsilon → 0 ≤ param.past →
      0 ≤ param.delta → param.min_step < 0 →
      checkParams n param = some LBFGSERR_INVALID_MINSTEP) ∧
    (0 < n → 0 < param.mem_size → 0 ≤ param.g_epsilon → 0 ≤ param.past →
      0 ≤ param.delta → 0 ≤ param.min_step → param.max_step < param.min_step →
      checkParams n param = some LBFGSERR_INVALID_MAXSTEP) ∧
    (0 < n → 0 < param.mem_size → 0 ≤ param.g_epsilon → 0 ≤ param.past →
      0 ≤ param.delta → 0 ≤ param.min_step → param.min_step ≤ param.max_step →
      param.f_dec_coeff < 0 → checkParams n param = some LBFGSERR_INVALID_FDECCOEFF) ∧
    (0 < n → 0 < param.mem_size → 0 ≤ param.g_epsilon → 0 ≤ param.past →
      0 ≤ param.delta → 0 ≤ param.min_step → param.min_step ≤ param.max_step →
      0 ≤ param.f_dec_coeff →
      (param.s_curv_coeff ≤ param.f_dec_coeff ∨ 1 ≤ param.s_curv_coeff) →
      checkParams n param = some LBFGSERR_INVALID_SCURVCOEFF) ∧
    (0 < n → 0 < param.mem_size → 0 ≤ param.g_epsilon → 0 ≤ param.past →
      0 ≤ param.delta → 0 ≤ param.min_step → param.min_step ≤ param.max_step →
      0 ≤ param.f_dec_coeff → param.f_dec_coeff < param.s_curv_coeff →
      param.s_curv_coeff < 1 → param.xtol < 0 →
      checkParams n param = some LBFGSERR_INVALID_XTOL) ∧
    (0 < n → 0 < param.mem_size → 0 ≤ param.g_epsilon → 0 ≤ param.past →
      0 ≤ param.delta → 0 ≤ param.min_step → param.min_step ≤ param.max_step →
      0 ≤ param.f_dec_coeff → param.f_dec_coeff < param.s_curv_coeff →
      param.s_curv_coeff < 1 → 0 ≤ param.xtol → param.max_linesearch ≤ 0 →
      checkParams n param = some LBFGSERR_INVALID_MAXLINESEARCH) ∧
    (checkedDomains n param → checkParams n param = none) := by
  refine ⟨?_, ?_, ?_, ?_, ?_, ?_, ?_, ?_, ?_, ?_, ?_, ?_, ?_⟩
  · intro e he
    rw [lbfgs_optimize, he]
  · intro h1
    rw [checkParams, if_pos h1]
  · intro h1 h2
    rw [checkParams, if_neg (by omega), if_pos h2]
  · intro h1 h2 h3
    rw [checkParams, if_neg (by omega), if_neg (by omega), if_pos h3]
  · intro h1 h2 h3 h4
    rw [checkParams, if_neg (by omega), if_neg (by omega), if_neg (not_lt.mpr h3),
      if_pos h4]
  · intro h1 h2 h3 h4 h5
    rw [checkParams, if_neg (by omega), if_neg (by omega), if_neg (not_lt.mpr h3),
      if_neg (by omega), if_pos h5]
  · intro h1 h2 h3 h4 h5 h6
    rw [checkParams, if_neg (by omega), if_neg (by omega), if_neg (not_lt.mpr h3),
      if_neg (by omega), if_neg (not_lt.mpr h5), if_pos h6]
  · intro h1 h2 h3 h4 h5 h6 h7
    rw [checkParams, if_neg (by omega), if_neg (by omega), if_neg (not_lt.mpr h3),
      if_neg (by omega), if_neg (not_lt.mpr h5), if_neg (not_lt.mpr h6), if_pos h7]
  · intro h1 h2 h3 h4 h5 h6 h7 h8
    rw [checkParams, if_neg (by omega), if_neg (by omega), if_neg (not_lt.mpr h3),
      if_neg (by omega), if_neg (not_lt.mpr h5), if_neg (not_lt.mpr h6),
      if_neg (not_lt.mpr h7), if_pos h8]
  · intro h1 h2 h3 h4 h5 h6 h7 h8 h9
    rw [checkParams, if_neg (by omega), if_neg (by omega), if_neg (not_lt.mpr h3),
      if_neg (by omega), if_neg (not_lt.mpr h5), if_neg (not_lt.mpr h6),
      if_neg (not_lt.mpr h7), if_neg (not_lt.mpr h8), if_pos h9]
  · intro h1 h2 h3 h4 h5 h6 h7 h8 h9 h10 h11
    rw [checkParams, if_neg (by omega), if_neg (by omega), if_neg (not_lt.mpr h3),
      if_neg (by omega), if_neg (not_lt.mpr h5), if_neg (not_lt.mpr h6),
      if_neg (not_lt.mpr h7), if_neg (not_lt.mpr h8),
      if_neg (not_or.mpr ⟨not_le.mpr h9, not_le.mpr h10⟩), if_pos h11]
  · intro h1 h2 h3 h4 h5 h6 h7 h8 h9 h10 h11 h12
    rw [checkParams, if_neg (by omega), if_neg (by omega), if_neg (not_lt.mpr h3),
      if_neg (by omega), if_neg (not_lt.mpr h5), if_neg (not_lt.mpr h6),
      if_neg (not_lt.mpr h7), if_neg (not_lt.mpr h8),
      if_neg (not_or.mpr ⟨not_le.mpr h9, not_le.mpr h10⟩), if_neg (not_lt.mpr h11),
      if_pos h12]
  · intro hd
    obtain ⟨h1, h2, h3, h4, h5, h6, h7, h8, h9, h10, h11, h12⟩ := hd
    rw [checkParams, if_neg (by omega), if_neg (by omega), if_neg (not_lt.mpr h3),
      if_neg (by omega), if_neg (not_lt.mpr h5), if_neg (not_lt.mpr h6),
      if_neg (not_lt.mpr h7), if_neg (not_lt.mpr h8),
      if_neg (not_or.mpr ⟨not_le.mpr h9, not_le.mpr h10⟩), if_neg (not_lt.mpr h11),
      if_neg (by omega)]

/-- C1 witness: a zero memory size is rejected with
`LBFGSERR_INVALID_MEMSIZE` before any evaluator call. -/
theorem C1_witness :
    checkParams 1 cfgBadM = some LBFGSERR_INVALID_MEMSIZE ∧
    lbfgs_optimize rsqrtW 1 1 [1] cbZ cfgBadM =
      some { status := LBFGSERR_INVALID_MEMSIZE, x := [1], ptr_fx := none, evals := 0,
             progressCalls := 0 } := by
  have h := C1_validation rsqrtW 1 1 [1] cbZ cfgBadM
  have h2 := h.2.2.1 (by norm_num) (by with_unfolding_all decide)
  exact ⟨h2, h.1 _ h2⟩

set_option maxRecDepth 400000 in
/-- C1 counterexample: the configuration with `f_dec_coeff = 0` violates
the claim's domain `0 < c1`, yet validation passes (`checkParams = none`)
and the run proceeds to an evaluator call, returning
`LBFGS_ALREADY_MINIMIZED` instead of any InvalidX status. -/
theorem C1_counterexample :
    ¬ 0 < cfgC1.f_dec_coeff ∧
    checkParams 1 cfgC1 = none ∧
    lbfgs_optimize rsqrtW 1 1 [1] cbZ cfgC1 =
      some { status := LBFGS_ALREADY_MINIMIZED, x := [1], ptr_fx := some 0, evals := 1,
             progressCalls := 0 } := by
  exact ⟨by with_unfolding_all decide, by with_unfolding_all decide,
    by with_unfolding_all decide⟩

/-- C7: the stagnation machinery.  With the past buffer enabled: the rate
test runs only on iterations with `past <= k` and stops the run with
`LBFGS_STOP` when `|rate| < delta` (without storing), the current
objective is stored into `pf[k % past]` whenever the test is skipped
(`k < past`) or passes, the driver exits with `LBFGS_STOP` when the test
fires, continues into the history update with the stored buffer
otherwise, and the initial objective is stored into `pf[0]` right after
the first evaluator call. -/
theorem C7_stagnation (rsqrt : ℚ → ℚ) (param : lbfgs_parameter_t) (st : OptState)
    (hpast : 0 < param.past) (hpf : st.pf ≠ []) :
    (st.k < param.past →
      stagnationUpdate param st.k st.fx st.pf =
        (none, st.pf.set (st.k % param.past).toNat st.fx)) ∧
    (param.past ≤ st.k →
      |(st.pf.getD (st.k % param.past).toNat 0 - st.fx) / st.fx| < param.delta →
      stagnationUpdate param st.k st.fx st.pf = (some LBFGS_STOP, st.pf)) ∧
    (param.past ≤ st.k →
      ¬ |(st.pf.getD (st.k % param.past).toNat 0 - st.fx) / st.fx| < param.delta →
      stagnationUpdate param st.k st.fx st.pf =
        (none, st.pf.set (st.k % param.past).toNat st.fx)) ∧
    (∀ pf1, stagnationUpdate param st.k st.fx st.pf = (some LBFGS_STOP, pf1) →
      ¬ vec2norm rsqrt st.g /
          (if vec2norm rsqrt st.x < 1 then 1 else vec2norm rsqrt st.x) ≤ param.g_epsilon →
      iterAfterProgress rsqrt param st = Sum.inl (LBFGS_STOP, { st with pf := pf1 })) ∧
    (∀ pf1, stagnationUpdate param st.k st.fx st.pf = (none, pf1) →
      ¬ vec2norm rsqrt st.g /
          (if vec2norm rsqrt st.x < 1 then 1 else vec2norm rsqrt st.x) ≤ param.g_epsilon →
      ¬ (param.max_iterations ≠ 0 ∧ param.max_iterations < st.k + 1) →
      iterAfterProgress rsqrt param st =
        Sum.inr (historyUpdate param { st with pf := pf1 })) ∧
    (∀ cb n x0,
      (initState rsqrt cb param n x0).pf =
        (List.replicate param.past.toNat 0).set 0 (cb.evaluate x0).1) := by
  refine ⟨?_, ?_, ?_, ?_, ?_, ?_⟩
  · intro hk
    rw [stagnationUpdate, if_neg hpf, if_neg (not_le.mpr hk)]
  · intro hk habs
    rw [stagnationUpdate, if_neg hpf, if_pos hk]
    dsimp only
    rw [if_pos habs]
  · intro hk habs
    rw [stagnationUpdate, if_neg hpf, if_pos hk]
    dsimp only
    rw [if_neg habs]
  · intro pf1 hsu hconv
    rw [iterAfterProgress]
    rw [if_neg hconv, hsu]
  · intro pf1 hsu hconv hcap
    rw [iterAfterProgress]
    rw [if_neg hconv, hsu]
    dsimp only
    rw [if_neg hcap]
  · intro cb n x0
    rw [initState]
    dsimp only
    rw [if_pos hpast, if_pos hpast]

/-- C7 witness: at iteration `k = 1` with `past = 2`, the test is skipped
and the objective is still stored into `pf[1 % 2]`. -/
theorem C7_witness :
    stagnationUpdate p7 st7.k st7.fx st7.pf =
      (none, st7.pf.set (st7.k % p7.past).toNat st7.fx) :=
  (C7_stagnation rsqrtW p7 st7 (by with_unfolding_all decide)
    (by with_unfolding_all decide)).1 (by with_unfolding_all decide)

/-- C8 (amended): with a step-bound provider present, the provider is
applied to the snapshot buffer `xp` as it stands at the top of the
iteration (the variables before the PREVIOUS line search; a zero vector
on the first iteration) together with the current direction; the bound is
clipped to `max_step`, and when the step estimate is at least the clipped
bound the step is set to half the BOUND (not half the estimate).  The
snapshot semantics: an iteration that continues leaves `xp` equal to its
own pre-search `x`, and the initial state's `xp` is the zero vector. -/
theorem C8_stepbound (rsqrt : ℚ → ℚ) (cb : Callbacks) (param : lbfgs_parameter_t)
    (st : OptState) (sb : Vec → Vec → ℚ) (hsb : cb.stepbound = some sb) :
    iterStep cb param st =
      (if sb st.xp st.d < param.max_step then sb st.xp st.d else param.max_step,
       if st.step ≥ (if sb st.xp st.d < param.max_step then sb st.xp st.d else param.max_step)
       then (if sb st.xp st.d < param.max_step then sb st.xp st.d else param.max_step) / 2
       else st.step) ∧
    (∀ st', lbfgs_iteration rsqrt cb param st = Sum.inr st' → st'.xp = st.x) ∧
    (∀ n x0, (initState rsqrt cb param n x0).xp = List.replicate n.toNat 0) := by
  refine ⟨?_, ?_, ?_⟩
  · rw [iterStep, hsb]
  · intro st' h
    obtain ⟨stC, heq, _, _, _, hxp, _, _⟩ := lbfgs_iteration_inr rsqrt cb param st st' h
    rw [heq]
    rw [show (historyUpdate param stC).xp = stC.xp from rfl]
    exact hxp
  · intro n x0
    rfl

/-- C8 witness: the step-interval formula of the amended claim evaluated
at the concrete state `st8`. -/
theorem C8_witness :
    iterStep cb8 _default_param st8 = (1 / 10, 1 / 20) := by
  rw [(C8_stepbound rsqrtW cb8 _default_param st8 sb8 rfl).1]
  with_unfolding_all decide

/-- C8 counterexample: on the first iteration the pre-search variables
are `x = [5]`, but the provider is handed the zeroed snapshot `xp = [0]`
and answers `1/10` (it would answer 100 for `[5]`); moreover the step is
set to `step_max / 2 = 1/20`, which is not half the step estimate
`st8.step / 2 = 1/4`. -/
theorem C8_counterexample :
    st8.x = [5] ∧ st8.xp = [0] ∧ sb8 [5] st8.d = 100 ∧ sb8 st8.xp st8.d = 1 / 10 ∧
    iterStep cb8 _default_param st8 = (1 / 10, 1 / 20) ∧
    ¬ (1 / 20 : ℚ) = st8.step / 2 := by
  refine ⟨by with_unfolding_all decide, by with_unfolding_all decide,
    by with_unfolding_all decide, by with_unfolding_all decide,
    by with_unfolding_all decide, by with_unfolding_all decide⟩

/-! Lemmas for the two-loop recursion (claim C6). -/

theorem getD_set {α : Type} (l : List α) (i q : Nat) (a dflt : α) :
    (l.set i a).getD q dflt = if i = q ∧ i < l.length then a else l.getD q dflt := by
  rcases eq_or_ne i q with rfl | hne
  · by_cases h : i < l.length
    · simp [List.getD_eq_getElem?_getD, List.getElem?_set_self', h]
    · rw [List.set_eq_of_length_le (by omega)]
      simp [h]
  · simp [List.getD_eq_getElem?_getD, List.getElem?_set_ne hne, hne]

theorem recentIdx_lt (mN e i : Nat) (hmN : 0 < mN) : recentIdx mN e i < mN :=
  Nat.mod_lt _ hmN

theorem recentIdx_zero (mN e : Nat) (hmN : 0 < mN) :
    recentIdx mN e 0 = (e + mN - 1) % mN := by
  rw [recentIdx]
  congr 1
  omega

theorem recentIdx_succ (mN e i : Nat) (hmN : 0 < mN) :
    recentIdx mN e (i + 1) = recentIdx mN ((e + mN - 1) % mN) i := by
  rw [recentIdx, recentIdx, Nat.mod_add_mod]
  congr 1
  obtain ⟨q, rfl⟩ : ∃ q, mN = q + 1 := ⟨mN - 1, by omega⟩
  have h1 : e + (q + 1) - 1 = e + q := by omega
  rw [h1]
  simp only [Nat.add_sub_cancel]
  ring

theorem recentIdx_ne (mN e : Nat) (hmN : 0 < mN) (i i' : Nat) (hii : i < i')
    (hi' : i' < mN) : recentIdx mN e i ≠ recentIdx mN e i' := by
  intro hEq
  have hmod : Nat.ModEq mN (e + (i + 1) * (mN - 1)) (e + (i' + 1) * (mN - 1)) := hEq
  have hdvd := Nat.modEq_iff_dvd.mp hmod
  have h2 : ((e + (i' + 1) * (mN - 1) : ℕ) : ℤ) - ((e + (i + 1) * (mN - 1) : ℕ) : ℤ) =
      ((i' : ℤ) - i) * mN - ((i' : ℤ) - i) := by
    push_cast [Nat.cast_sub (show 1 ≤ mN by omega)]
    ring
  rw [h2] at hdvd
  have h3 : (mN : ℤ) ∣ ((i' : ℤ) - i) := by
    have h4 : (mN : ℤ) ∣ ((i' : ℤ) - i) * mN := dvd_mul_left _ _
    have h5 := dvd_sub h4 hdvd
    simpa using h5
  have h6 := Int.le_of_dvd (by omega) h3
  omega

theorem range_map_recentIdx_succ (mN e b : Nat) (hmN : 0 < mN) :
    (List.range (b + 1)).map (recentIdx mN e) =
      (e + mN - 1) % mN :: (List.range b).map (recentIdx mN ((e + mN - 1) % mN)) := by
  rw [List.range_succ_eq_map, List.map_cons, List.map_map]
  congr 1
  · exact recentIdx_zero mN e hmN
  · apply List.map_congr_left
    intro i _
    show recentIdx mN e (i + 1) = recentIdx mN ((e + mN - 1) % mN) i
    exact recentIdx_succ mN e i hmN

theorem specAlphas_length (lm : List iteration_data_t) :
    ∀ (idxs : List Nat) (d : Vec), (specAlphas lm idxs d).1.length = idxs.length := by
  intro idxs
  induction idxs with
  | nil => intro d; rfl
  | cons j rest ih =>
      intro d
      simp only [specAlphas, List.length_cons]
      rw [ih]

theorem specAlphas_congr (lm lm2 : List iteration_data_t)
    (h : ∀ q, (lm2.getD q default).s = (lm.getD q default).s ∧
          (lm2.getD q default).y = (lm.getD q default).y ∧
          (lm2.getD q default).ys = (lm.getD q default).ys) :
    ∀ (idxs : List Nat) (d : Vec), specAlphas lm2 idxs d = specAlphas lm idxs d := by
  intro idxs
  induction idxs with
  | nil => intro d; rfl
  | cons j rest ih =>
      intro d
      simp only [specAlphas]
      rw [(h j).1, (h j).2.1, (h j).2.2, ih]

theorem recentIdx_back (mN e : Nat) (hmN : 0 < mN) (b i : Nat) (hi : i ≤ b) :
    (recentIdx mN e b + i) % mN = recentIdx mN e (b - i) := by
  rw [recentIdx, recentIdx, Nat.mod_add_mod]
  have h1 : e + (b + 1) * (mN - 1) + i = e + (b - i + 1) * (mN - 1) + i * mN := by
    obtain ⟨q, rfl⟩ : ∃ q, mN = q + 1 := ⟨mN - 1, by omega⟩
    obtain ⟨r, rfl⟩ : ∃ r, b = i + r := ⟨b - i, by omega⟩
    simp only [Nat.add_sub_cancel, Nat.add_sub_cancel_left]
    ring
  rw [h1, Nat.add_mul_mod_self_right]

theorem twoLoopPass1_spec (mN : Nat) (hmN : 0 < mN) :
    ∀ (b j : Nat) (lm : List iteration_data_t) (d : Vec), j < mN → lm.length = mN →
      ((twoLoopPass1 mN b j lm d).2.1 =
        (specAlphas lm ((List.range b).map (recentIdx mN j)) d).2) ∧
      ((twoLoopPass1 mN b j lm d).2.2 = if b = 0 then j else recentIdx mN j (b - 1)) ∧
      ((twoLoopPass1 mN b j lm d).1.length = mN) ∧
      (∀ q, ((twoLoopPass1 mN b j lm d).1.getD q default).s = (lm.getD q default).s ∧
            ((twoLoopPass1 mN b j lm d).1.getD q default).y = (lm.getD q default).y ∧
            ((twoLoopPass1 mN b j lm d).1.getD q default).ys = (lm.getD q default).ys) ∧
      (∀ q, (∀ i, i < b → q ≠ recentIdx mN j i) →
        (twoLoopPass1 mN b j lm d).1.getD q default = lm.getD q default) ∧
      (b ≤ mN → ∀ i, i < b →
        (twoLoopPass1 mN b j lm d).1.getD (recentIdx mN j i) default =
          { lm.getD (recentIdx mN j i) default with
            alpha := (specAlphas lm ((List.range b).map (recentIdx mN j)) d).1.getD i 0 }) := by
  intro b
  induction b with
  | zero =>
      intro j lm d hj hlen
      exact ⟨rfl, rfl, hlen, fun q => ⟨rfl, rfl, rfl⟩, fun q _ => rfl,
        fun _ i hi => absurd hi (by omega)⟩
  | succ b ih =>
      intro j lm d hj hlen
      have hj1 : (j + mN - 1) % mN < mN := Nat.mod_lt _ hmN
      have hunfold : twoLoopPass1 mN (b + 1) j lm d =
          twoLoopPass1 mN b ((j + mN - 1) % mN)
            (lm.set ((j + mN - 1) % mN)
              { lm.getD ((j + mN - 1) % mN) default with
                alpha := vecdot (lm.getD ((j + mN - 1) % mN) default).s d /
                  (lm.getD ((j + mN - 1) % mN) default).ys })
            (vecadd d (lm.getD ((j + mN - 1) % mN) default).y
              (-(vecdot (lm.getD ((j + mN - 1) % mN) default).s d /
                  (lm.getD ((j + mN - 1) % mN) default).ys))) := rfl
      have hlen1 : (lm.set ((j + mN - 1) % mN)
          { lm.getD ((j + mN - 1) % mN) default with
            alpha := vecdot (lm.getD ((j + mN - 1) % mN) default).s d /
              (lm.getD ((j + mN - 1) % mN) default).ys }).length = mN := by
        rw [List.length_set]; exact hlen
      have hsym : ∀ q,
          ((lm.set ((j + mN - 1) % mN)
            { lm.getD ((j + mN - 1) % mN) default with
              alpha := vecdot (lm.getD ((j + mN - 1) % mN) default).s d /
                (lm.getD ((j + mN - 1) % mN) default).ys }).getD q default).s =
            (lm.getD q default).s ∧
          ((lm.set ((j + mN - 1) % mN)
            { lm.getD ((j + mN - 1) % mN) default with
              alpha := vecdot (lm.getD ((j + mN - 1) % mN) default).s d /
                (lm.getD ((j + mN - 1) % mN) default).ys }).getD q default).y =
            (lm.getD q default).y ∧
          ((lm.set ((j + mN - 1) % mN)
            { lm.getD ((j + mN - 1) % mN) default with
              alpha := vecdot (lm.getD ((j + mN - 1) % mN) default).s d /
                (lm.getD ((j + mN - 1) % mN) default).ys }).getD q default).ys =
            (lm.getD q default).ys := by
        intro q
        rw [getD_set]
        split_ifs with hcase
        · obtain ⟨rfl, _⟩ := hcase
          exact ⟨rfl, rfl, rfl⟩
        · exact ⟨rfl, rfl, rfl⟩
      obtain ⟨ihd, ihj, ihlen, ihsym, ihuntouched, ihvisited⟩ :=
        ih ((j + mN - 1) % mN)
          (lm.set ((j + mN - 1) % mN)
            { lm.getD ((j + mN - 1) % mN) default with
              alpha := vecdot (lm.getD ((j + mN - 1) % mN) default).s d /
                (lm.getD ((j + mN - 1) % mN) default).ys })
          (vecadd d (lm.getD ((j + mN - 1) % mN) default).y
            (-(vecdot (lm.getD ((j + mN - 1) % mN) default).s d /
                (lm.getD ((j + mN - 1) % mN) default).ys)))
          hj1 hlen1
      have hcongr := specAlphas_congr lm _ hsym
        ((List.range b).map (recentIdx mN ((j + mN - 1) % mN)))
        (vecadd d (lm.getD ((j + mN - 1) % mN) default).y
          (-(vecdot (lm.getD ((j + mN - 1) % mN) default).s d /
              (lm.getD ((j + mN - 1) % mN) default).ys)))
      have hspec : (List.range (b + 1)).map (recentIdx mN j) =
          (j + mN - 1) % mN :: (List.range b).map (recentIdx mN ((j + mN - 1) % mN)) :=
        range_map_recentIdx_succ mN j b hmN
      have hsa : specAlphas lm ((List.range (b + 1)).map (recentIdx mN j)) d =
          (vecdot (lm.getD ((j + mN - 1) % mN) default).s d /
              (lm.getD ((j + mN - 1) % mN) default).ys ::
            (specAlphas lm ((List.range b).map (recentIdx mN ((j + mN - 1) % mN)))
              (vecadd d (lm.getD ((j + mN - 1) % mN) default).y
                (-(vecdot (lm.getD ((j + mN - 1) % mN) default).s d /
                    (lm.getD ((j + mN - 1) % mN) default).ys)))).1,
           (specAlphas lm ((List.range b).map (recentIdx mN ((j + mN - 1) % mN)))
              (vecadd d (lm.getD ((j + mN - 1) % mN) default).y
                (-(vecdot (lm.getD ((j + mN - 1) % mN) default).s d /
                    (lm.getD ((j + mN - 1) % mN) default).ys)))).2) := by
        rw [hspec]
        rfl
      refine ⟨?_, ?_, ?_, ?_, ?_, ?_⟩
      · rw [hunfold, ihd, hcongr, hsa]
      · rw [hunfold, ihj]
        by_cases hb0 : b = 0
        · subst hb0
          simp only [if_pos rfl, Nat.succ_ne_zero, if_false, Nat.succ_sub_one]
          exact (recentIdx_zero mN j hmN).symm
        · obtain ⟨b', rfl⟩ : ∃ b', b = b' + 1 := ⟨b - 1, by omega⟩
          simp only [Nat.succ_ne_zero, if_false, Nat.succ_sub_one]
          exact (recentIdx_succ mN j b' hmN).symm
      · rw [hunfold]; exact ihlen
      · intro q
        rw [hunfold]
        exact ⟨(ihsym q).1.trans (hsym q).1, (ihsym q).2.1.trans (hsym q).2.1,
          (ihsym q).2.2.trans (hsym q).2.2⟩
      · intro q hq
        have hq1 : q ≠ (j + mN - 1) % mN := by
          have h0 := hq 0 (by omega)
          rwa [recentIdx_zero mN j hmN] at h0
        have hlater : ∀ i, i < b → q ≠ recentIdx mN ((j + mN - 1) % mN) i := by
          intro i hi
          have := hq (i + 1) (by omega)
          rwa [recentIdx_succ mN j i hmN] at this
        rw [hunfold, ihuntouched q hlater, getD_set,
          if_neg (fun hcase => hq1 hcase.1.symm)]
      · intro hb i hi
        cases i with
        | zero =>
            have hfresh : ∀ i', i' < b →
                (j + mN - 1) % mN ≠ recentIdx mN ((j + mN - 1) % mN) i' := by
              intro i' hi'
              rw [← recentIdx_succ mN j i' hmN, ← recentIdx_zero mN j hmN]
              exact recentIdx_ne mN j hmN 0 (i' + 1) (by omega) (by omega)
            rw [recentIdx_zero mN j hmN, hunfold, hsa, ihuntouched _ hfresh, getD_set,
              if_pos ⟨rfl, by rw [hlen]; exact hj1⟩]
            rfl
        | succ i' =>
            have hne : (j + mN - 1) % mN ≠ recentIdx mN ((j + mN - 1) % mN) i' := by
              rw [← recentIdx_succ mN j i' hmN, ← recentIdx_zero mN j hmN]
              exact recentIdx_ne mN j hmN 0 (i' + 1) (by omega) (by omega)
            rw [recentIdx_succ mN j i' hmN, hunfold, hsa,
              ihvisited (by omega) i' (by omega), getD_set,
              if_neg (fun hcase => hne hcase.1), hcongr]
            rfl

theorem twoLoopPass2_spec (mN : Nat) (hmN : 0 < mN) (lm : List iteration_data_t) :
    ∀ (ps : List (Nat × ℚ)) (j : Nat) (lm2 : List iteration_data_t) (d : Vec),
      j < mN →
      (∀ i (hi : i < ps.length), (ps.get ⟨i, hi⟩).1 = (j + i) % mN) →
      (∀ p ∈ ps, lm2.getD p.1 default = { lm.getD p.1 default with alpha := p.2 }) →
      twoLoopPass2 mN ps.length j lm2 d = specPass2 lm ps d := by
  intro ps
  induction ps with
  | nil =>
      intro j lm2 d hj hwalk hlook
      rfl
  | cons p rest ih =>
      intro j lm2 d hj hwalk hlook
      obtain ⟨q, A⟩ := p
      have hq : q = j := by
        have h0 := hwalk 0 (Nat.succ_pos _)
        simpa [Nat.mod_eq_of_lt hj] using h0
      subst hq
      have hlookhead := hlook (q, A) (List.mem_cons_self _ _)
      show twoLoopPass2 mN (rest.length + 1) q lm2 d = specPass2 lm ((q, A) :: rest) d
      simp only [twoLoopPass2, specPass2]
      rw [hlookhead]
      dsimp only
      apply ih ((q + 1) % mN) lm2 _ (Nat.mod_lt _ hmN)
      · intro i hi
        have h1 : (rest.get ⟨i, hi⟩).1 = (q + (i + 1)) % mN :=
          hwalk (i + 1) (Nat.succ_lt_succ hi)
        rw [Nat.mod_add_mod, h1]
        congr 1
        omega
      · intro p hp
        exact hlook p (List.mem_cons_of_mem _ hp)

theorem twoLoop_eq_claim (mN : Nat) (hmN : 0 < mN) (b : Nat) (hb : b ≤ mN) (e1 : Nat)
    (he : e1 < mN) (lm : List iteration_data_t) (hlen : lm.length = mN) (d0 : Vec) (c : ℚ) :
    twoLoopPass2 mN b (twoLoopPass1 mN b e1 lm d0).2.2 (twoLoopPass1 mN b e1 lm d0).1
        (vecscale (twoLoopPass1 mN b e1 lm d0).2.1 c) =
      specPass2 lm
        ((((List.range b).map (recentIdx mN e1)).zip
            (specAlphas lm ((List.range b).map (recentIdx mN e1)) d0).1).reverse)
        (vecscale (specAlphas lm ((List.range b).map (recentIdx mN e1)) d0).2 c) := by
  obtain ⟨ihd, ihj, ihlen, ihsym, ihuntouched, ihvisited⟩ :=
    twoLoopPass1_spec mN hmN b e1 lm d0 he hlen
  cases b with
  | zero => rfl
  | succ b' =>
      have hlenidxs : ((List.range (b' + 1)).map (recentIdx mN e1)).length = b' + 1 := by
        simp
      have hlenalphas :
          (specAlphas lm ((List.range (b' + 1)).map (recentIdx mN e1)) d0).1.length =
            b' + 1 := by
        rw [specAlphas_length, hlenidxs]
      have hzip : (((List.range (b' + 1)).map (recentIdx mN e1)).zip
          (specAlphas lm ((List.range (b' + 1)).map (recentIdx mN e1)) d0).1).length =
            b' + 1 := by
        rw [List.length_zip, hlenidxs, hlenalphas]
        omega
      have hrevlen : ((((List.range (b' + 1)).map (recentIdx mN e1)).zip
          (specAlphas lm ((List.range (b' + 1)).map (recentIdx mN e1)) d0).1).reverse).length =
            b' + 1 := by
        rw [List.length_reverse, hzip]
      have hjf : (twoLoopPass1 mN (b' + 1) e1 lm d0).2.2 = recentIdx mN e1 b' := by
        rw [ihj]
        simp
      have h2 := twoLoopPass2_spec mN hmN lm
        ((((List.range (b' + 1)).map (recentIdx mN e1)).zip
            (specAlphas lm ((List.range (b' + 1)).map (recentIdx mN e1)) d0).1).reverse)
        (recentIdx mN e1 b')
        (twoLoopPass1 mN (b' + 1) e1 lm d0).1
        (vecscale (specAlphas lm ((List.range (b' + 1)).map (recentIdx mN e1)) d0).2 c)
        (recentIdx_lt mN e1 b' hmN)
        ?walk ?look
      case walk =>
        intro i hi
        have hi' : i < b' + 1 := by rw [hrevlen] at hi; exact hi
        rw [List.get_eq_getElem]
        simp only [List.getElem_reverse, List.getElem_zip, List.getElem_map,
          List.getElem_range]
        have hk : (((List.range (b' + 1)).map (recentIdx mN e1)).zip
            (specAlphas lm ((List.range (b' + 1)).map (recentIdx mN e1)) d0).1).length - 1 -
              i = b' - i := by
          rw [hzip]
          omega
        rw [hk]
        exact (recentIdx_back mN e1 hmN b' i (by omega)).symm
      case look =>
        intro p hp
        rw [List.mem_reverse] at hp
        obtain ⟨⟨i, hi⟩, hget⟩ := List.get_of_mem hp
        rw [← hget, List.get_eq_getElem]
        simp only [List.getElem_zip, List.getElem_map, List.getElem_range]
        have hi' : i < b' + 1 := by rw [hzip] at hi; exact hi
        rw [ihvisited hb i hi']
        dsimp only
        congr 1
        have hbound : i <
            (specAlphas lm (List.map (recentIdx mN e1) (List.range (b' + 1))) d0).1.length := by
          rw [hlenalphas]
          exact hi'
        exact List.getD_eq_getElem _ _ hbound
      rw [hrevlen] at h2
      rw [ihd, hjf]
      exact h2

/-- C6: the history update and two-loop recursion.  After an accepted
step the slot at index `end` receives `s = x_new - x_old`,
`y = g_new - g_old` and `ys = y.s`; `end` advances to `(end+1) mod m`;
the step guess resets to 1; and the new direction equals the
specification's description `claimDirection`: `d = -g`, a first pass
from most recent to oldest entry computing `alpha_j` and subtracting
`alpha_j * y_j`, a scaling by `ys/yy` of the most recent pair, and a
second pass from oldest to most recent adding `(alpha_j - beta_j) * s_j`.
The second conjunct is the iteration-1 step guess `1/||d||` set at
initialization; the third ties the update into the driver: every
continuing iteration produces its next state by `historyUpdate` applied
to the accepted values. -/
theorem C6_history_two_loop (param : lbfgs_parameter_t) (st : OptState)
    (hm : 1 ≤ param.mem_size) (hlen : st.lm.length = param.mem_size.toNat)
    (hend : st.endIdx < param.mem_size.toNat) (hk : 1 ≤ st.k) :
    ((historyUpdate param st).k = st.k + 1 ∧
     (historyUpdate param st).endIdx = (st.endIdx + 1) % param.mem_size.toNat ∧
     (historyUpdate param st).step = 1 ∧
     ((historyUpdate param st).lm.getD st.endIdx default).s = vecdiff st.x st.xp ∧
     ((historyUpdate param st).lm.getD st.endIdx default).y = vecdiff st.g st.gp ∧
     ((historyUpdate param st).lm.getD st.endIdx default).ys =
       vecdot (vecdiff st.g st.gp) (vecdiff st.x st.xp) ∧
     (historyUpdate param st).d =
       claimDirection param.mem_size.toNat
         (if param.mem_size ≤ st.k then param.mem_size else st.k).toNat
         ((st.endIdx + 1) % param.mem_size.toNat)
         (st.lm.set st.endIdx
           { st.lm.getD st.endIdx default with
             s := vecdiff st.x st.xp
             y := vecdiff st.g st.gp
             ys := vecdot (vecdiff st.g st.gp) (vecdiff st.x st.xp) })
         st.g
         (vecdot (vecdiff st.g st.gp) (vecdiff st.x st.xp))
         (vecdot (vecdiff st.g st.gp) (vecdiff st.g st.gp))) ∧
    (∀ (rsqrt : ℚ → ℚ) (cb : Callbacks) (n : Int) (x0 : Vec),
      (initState rsqrt cb param n x0).step =
        vec2norminv rsqrt (initState rsqrt cb param n x0).d) ∧
    (∀ (rsqrt : ℚ → ℚ) (cb : Callbacks) (stB st' : OptState),
      lbfgs_iteration rsqrt cb param stB = Sum.inr st' →
      ∃ stC : OptState, st' = historyUpdate param stC ∧
        stC.x = (iterLS cb param stB).x ∧ stC.xp = stB.x ∧ stC.gp = stB.g ∧
        stC.k = stB.k) := by
  have hmN : 0 < param.mem_size.toNat := by omega
  have he1 : (st.endIdx + 1) % param.mem_size.toNat < param.mem_size.toNat :=
    Nat.mod_lt _ hmN
  have hlm1len : (st.lm.set st.endIdx
      { st.lm.getD st.endIdx default with
        s := vecdiff st.x st.xp
        y := vecdiff st.g st.gp
        ys := vecdot (vecdiff st.g st.gp) (vecdiff st.x st.xp) }).length =
      param.mem_size.toNat := by
    rw [List.length_set]
    exact hlen
  have hbT : (if param.mem_size ≤ st.k then param.mem_size else st.k).toNat ≤
      param.mem_size.toNat := by
    split_ifs with h <;> omega
  obtain ⟨_, _, _, hsym, _, _⟩ :=
    twoLoopPass1_spec param.mem_size.toNat hmN
      (if param.mem_size ≤ st.k then param.mem_size else st.k).toNat
      ((st.endIdx + 1) % param.mem_size.toNat)
      (st.lm.set st.endIdx
        { st.lm.getD st.endIdx default with
          s := vecdiff st.x st.xp
          y := vecdiff st.g st.gp
          ys := vecdot (vecdiff st.g st.gp) (vecdiff st.x st.xp) })
      (vecncpy st.g) he1 hlm1len
  have hslot : (st.lm.set st.endIdx
      { st.lm.getD st.endIdx default with
        s := vecdiff st.x st.xp
        y := vecdiff st.g st.gp
        ys := vecdot (vecdiff st.g st.gp) (vecdiff st.x st.xp) }).getD st.endIdx default =
      { st.lm.getD st.endIdx default with
        s := vecdiff st.x st.xp
        y := vecdiff st.g st.gp
        ys := vecdot (vecdiff st.g st.gp) (vecdiff st.x st.xp) } := by
    rw [getD_set, if_pos ⟨rfl, by rw [hlen]; exact hend⟩]
  refine ⟨⟨rfl, rfl, rfl, ?_, ?_, ?_, ?_⟩, fun rsqrt cb n x0 => rfl, ?_⟩
  · exact ((hsym st.endIdx).1).trans (by rw [hslot])
  · exact ((hsym st.endIdx).2.1).trans (by rw [hslot])
  · exact ((hsym st.endIdx).2.2).trans (by rw [hslot])
  · exact twoLoop_eq_claim param.mem_size.toNat hmN
      (if param.mem_size ≤ st.k then param.mem_size else st.k).toNat hbT
      ((st.endIdx + 1) % param.mem_size.toNat) he1
      (st.lm.set st.endIdx
        { st.lm.getD st.endIdx default with
          s := vecdiff st.x st.xp
          y := vecdiff st.g st.gp
          ys := vecdot (vecdiff st.g st.gp) (vecdiff st.x st.xp) })
      hlm1len (vecncpy st.g)
      (vecdot (vecdiff st.g st.gp) (vecdiff st.x st.xp) /
        vecdot (vecdiff st.g st.gp) (vecdiff st.g st.gp))
  · intro rsqrt cb stB st' h
    obtain ⟨stC, heq, hx, _, _, hxp, hgp, hkk⟩ :=
      lbfgs_iteration_inr rsqrt cb param stB st' h
    exact ⟨stC, heq, hx, hxp, hgp, hkk⟩

/-- C6 witness: the history theorem applied at the concrete accepted
state `st9A` of the `ev9` run, together with the concrete initial step
guess `1/||d||`. -/
theorem C6_witness :
    (historyUpdate _default_param st9A).k = st9A.k + 1 ∧
    (initState rsqrtW cb9 _default_param 1 [0]).step =
      vec2norminv rsqrtW (initState rsqrtW cb9 _default_param 1 [0]).d := by
  have h := C6_history_two_loop _default_param st9A (by with_unfolding_all decide)
    (by with_unfolding_all decide) (by with_unfolding_all decide)
    (by with_unfolding_all decide)
  exact ⟨h.1.1, h.2.1 rsqrtW cb9 1 [0]⟩

/-- C9 witness: the fx-not-restored theorem applied at the concrete
failing state `st9b`. -/
theorem C9_witness :
    lbfgs_iteration rsqrtW cb9 _default_param st9b =
      Sum.inl ((iterLS cb9 _default_param st9b).status,
        lsFailState st9b (iterLS cb9 _default_param st9b)) ∧
    (lsFailState st9b (iterLS cb9 _default_param st9b)).fx =
      (iterLS cb9 _default_param st9b).f := by
  have h := C9_fx_not_restored rsqrtW cb9 _default_param st9b (by with_unfolding_all decide)
  exact ⟨h.1, h.2.2.2.1⟩

end LbfgsLite
